import Mathlib

/-!
Verification development for the interactive command layer of the githd
history browser (`src/commands.ts`).  The definitions below are a shallow
embedding of that module: user interactions (quick picks, input boxes) are
passed in as explicit data (`Option Nat` pick indices, `Option String`
input-box results, `none` meaning the user cancelled), and the mutable
`Model` context store is passed as explicit state.
-/

namespace Githd

/-- `GitRefType` from `gitService.ts`: the three kinds of refs. -/
inductive GitRefType where
  | Head
  | Tag
  | RemoteHead
deriving DecidableEq, Repr

/-- A git reference as consumed by `commands.ts`: a possibly-absent name and
a commit hash. -/
structure GitRef where
  type : GitRefType
  name : Option String
  commit : String
deriving DecidableEq, Repr

/-- A git repository: `commands.ts` only uses its `root` path. -/
structure GitRepo where
  root : String
deriving DecidableEq, Repr

/-- A VS Code quick-pick item as built by this module.  The
`EnterShaPickItem` class carries `openShaTextBox = true`; ordinary items
lack the property, i.e. it is falsy, modelled as `false`. -/
structure QuickPickItem where
  label : String
  description : String
  openShaTextBox : Bool := false
deriving DecidableEq, Repr

/-- JavaScript `a || b` on a possibly-absent string (used as
`ref.name || ref.commit`): an absent or empty string falls through to `b`. -/
def jsOr (a : Option String) (b : String) : String :=
  match a with
  | some s => if s = "" then b else s
  | none => b

/-- JavaScript truthiness of a possibly-absent string: `undefined`/`null`
and `""` are falsy. -/
def jsTruthy : Option String → Bool
  | none => false
  | some s => s ≠ ""

/-- The `SpaceChar` constant of `selectBranch`: a non-breaking space. -/
def SpaceChar : String := " "

/-- The label decoration applied by `selectBranch` when `selectCurRef` is
set: the current item gets a check-mark marker, every other item gets four
non-breaking spaces, and a plain space separates marker and label. -/
def decorate (isCur : Bool) (label : String) : String :=
  (if isCur then "$(check)" ++ SpaceChar
   else SpaceChar ++ SpaceChar ++ SpaceChar ++ SpaceChar) ++ " " ++ label

/-- The description string `selectBranch` computes for a ref. -/
def refDescription (ref : GitRef) : String :=
  match ref.type with
  | .Head => ref.commit
  | .Tag => "Tag at " ++ ref.commit
  | .RemoteHead => "Remote branch at " ++ ref.commit

/-- The undecorated label of a ref: `ref.name || ref.commit`. -/
def refLabel (ref : GitRef) : String := jsOr ref.name ref.commit

/-- The body of the `refs.map` in `selectBranch`: one quick-pick item per
ref; when `selectCurRef` is set the label is decorated, marking the item
whose label equals the current branch name. -/
def refToItem (currentRef : Option String) (selectCurRef : Bool) (ref : GitRef) :
    QuickPickItem :=
  let label := refLabel ref
  let label := if selectCurRef then decorate (currentRef == some label) label else label
  { label := label, description := refDescription ref }

/-- The `EnterShaPickItem` manual-entry sentinel. -/
def enterShaItem : QuickPickItem :=
  { label := "Enter commit SHA", description := "", openShaTextBox := true }

/-- `selectBranch(gitService, repo, allowEnterSha, selectCurRef)`: builds the
ref pick list.  The catalog answers (`getRefs`, `getCurrentBranch`) are
passed in as `refs` and `currentRef`. -/
def selectBranch (refs : List GitRef) (currentRef : Option String)
    (allowEnterSha : Bool) (selectCurRef : Bool) : List QuickPickItem :=
  let items := refs.map (refToItem currentRef selectCurRef)
  if allowEnterSha then enterShaItem :: items else items

/-- `selectGitRepo(gitService)`: repository selection.  `pick` is the user
choice in the quick pick (`none` = cancelled); the second component records
whether a prompt was shown at all.  Zero repos yield `none` with no prompt;
exactly one repo is returned with no prompt. -/
def selectGitRepo (repos : List GitRepo) (pick : Option Nat) :
    Option GitRepo × Bool :=
  if repos.length = 0 then (none, false)
  else if repos.length = 1 then (repos[0]?, false)
  else
    match pick with
    | none => (none, true)
    | some i => (repos[i]?, true)

/-- `getRefFromQuickPickItem(item, inputBoxTitle)`: a sentinel item opens an
input box (its result `inputBoxResult`, `none` on cancel, returned with no
trimming); a real choice resolves to its label. -/
def getRefFromQuickPickItem (item : QuickPickItem) (inputBoxResult : Option String) :
    Option String :=
  if item.openShaTextBox then inputBoxResult else some item.label

/-- The `FilesViewContext` record published to `Model.filesViewContext`.
Absent (`null`/`undefined`) fields are `none`. -/
structure FilesViewContext where
  repo : Option GitRepo
  leftRef : Option String
  rightRef : Option String
  specifiedPath : Option String
deriving DecidableEq, Repr

/-- Outcome of one command-handler run, as observed at the context store:
a context was published, an error message was shown (no publish), or the
handler returned silently (no publish). -/
inductive FlowResult where
  | published (ctx : FilesViewContext)
  | errorMsg (msg : String)
  | aborted
deriving DecidableEq, Repr

/-- Modelled from the spec: the `Model.filesViewContext` setter is not among
the sources; per the Context Dispatcher section of the spec it replaces the
externally-held current files/diff context with the assigned record. -/
def publishFiles (_m : Option FilesViewContext) (c : FilesViewContext) :
    Option FilesViewContext :=
  some c

/-- The effect of a handler run on the stored files-view context: only a
`published` outcome changes it. -/
def applyFlow (m : Option FilesViewContext) (r : FlowResult) :
    Option FilesViewContext :=
  match r with
  | .published c => publishFiles m c
  | _ => m

/-- The context assigned by the `clear` handler: every field null. -/
def clearContext : FilesViewContext :=
  { leftRef := none, rightRef := none, specifiedPath := none, repo := none }

/-- The `clear` handler: unconditionally publishes `clearContext`. -/
def clear (m : Option FilesViewContext) : Option FilesViewContext :=
  publishFiles m clearContext

set_option linter.unusedVariables false in
/-- `CommandCenter._choseBranchOnPick(repo, placeholder, allowEnterSha,
defaultRef)`: shows the quick pick over `selectBranch(gitService, repo,
allowEnterSha)` — the `defaultRef` parameter is accepted but never passed
on to `selectBranch`, whose `selectCurRef` argument is therefore left
`undefined` (falsy). -/
def choseBranchOnPick (refs : List GitRef) (currentRef : Option String)
    (allowEnterSha : Bool) (defaultRef : Bool := false) : List QuickPickItem :=
  selectBranch refs currentRef allowEnterSha false

/-- User interactions consumed by one run of the `diffBranch` handler:
the repo pick, the two branch picks (indices into the shown list, `none` =
cancelled), and the two input-box results used when a branch pick hit the
manual-entry sentinel. -/
structure DiffBranchUser where
  repoPick : Option Nat
  sourcePick : Option Nat
  targetPick : Option Nat
  sourceInput : Option String
  targetInput : Option String
deriving Repr

/-- The `diffBranch` handler.  Catalog answers are `repos`, `refs`,
`currentRef`.  Source and target rounds both present
`_choseBranchOnPick(repo, …, true[, true])`; a missing pick shows
"Invalid Branch"; otherwise both refs are resolved via
`getRefFromQuickPickItem` and the context is published as-is. -/
def diffBranch (repos : List GitRepo) (refs : List GitRef)
    (currentRef : Option String) (u : DiffBranchUser) : FlowResult :=
  match (selectGitRepo repos u.repoPick).1 with
  | none => .aborted
  | some repo =>
    let sourceItems := choseBranchOnPick refs currentRef true true
    match u.sourcePick.bind (fun i => sourceItems[i]?) with
    | none => .errorMsg "Invalid Branch"
    | some sourceBranch =>
      let targetItems := choseBranchOnPick refs currentRef true
      match u.targetPick.bind (fun i => targetItems[i]?) with
      | none => .errorMsg "Invalid Branch"
      | some targetBranch =>
        let leftRef := getRefFromQuickPickItem sourceBranch u.sourceInput
        let rightRef := getRefFromQuickPickItem targetBranch u.targetInput
        .published { repo := some repo, leftRef := leftRef, rightRef := rightRef,
                     specifiedPath := none }

/-- User interactions consumed by one run of the `diffFile` handler. -/
structure DiffFileUser where
  pick : Option Nat
  input : Option String
deriving Repr

/-- The `diffFile` handler for a given repo: presents
`selectBranch(gitService, repo, true)`, resolves the picked item via
`getRefFromQuickPickItem`, aborts when the resolved `leftRef` is falsy
(`if (!leftRef) return`), and otherwise publishes with `rightRef` the
current branch. -/
def diffFile (repo : GitRepo) (refs : List GitRef) (currentRef : Option String)
    (specifiedPath : Option String) (u : DiffFileUser) : FlowResult :=
  match specifiedPath with
  | none => .aborted
  | some p =>
    let items := selectBranch refs currentRef true false
    match u.pick.bind (fun i => items[i]?) with
    | none => .aborted
    | some item =>
      let leftRef := getRefFromQuickPickItem item u.input
      if jsTruthy leftRef then
        .published { repo := some repo, leftRef := leftRef, rightRef := currentRef,
                     specifiedPath := some p }
      else .aborted

/-- A JavaScript run outcome: normal completion or a thrown exception
(an unhandled rejection inside a `.then` callback). -/
inductive JsResult (α : Type) where
  | ok (a : α)
  | thrown (msg : String)
deriving DecidableEq, Repr

/-- The `inputRef` handler: after repo selection it shows an input box and
in the continuation evaluates `ref.trim()` on the result with no guard —
a cancelled box (`ref = undefined`) therefore throws a `TypeError`; a
submitted string is trimmed and published as `rightRef`. -/
def inputRef (repos : List GitRepo) (repoPick : Option Nat)
    (input : Option String) : JsResult FlowResult :=
  match (selectGitRepo repos repoPick).1 with
  | none => .ok .aborted
  | some repo =>
    match input with
    | none => .thrown "TypeError: Cannot read properties of undefined (reading trim)"
    | some ref =>
      .ok (.published { leftRef := none, rightRef := some ref.trim,
                        specifiedPath := none, repo := some repo })

/-- The refs and title computed by `openCommittedFile` from the stored
files-view context: `leftRefCtx` is the context field `leftRef` field and
`rightRef` its (present) `rightRef`.  The left side defaults to
`rightRef + "~"` and the title to `rightRef`; a truthy `leftRef` overrides
both. -/
def openCommittedFile (leftRefCtx : Option String) (rightRef : String) :
    String × String × String :=
  let leftRef := rightRef ++ "~"
  let title := rightRef
  if jsTruthy leftRefCtx then
    let l := leftRefCtx.getD ""
    (l, rightRef, l ++ " .. " ++ rightRef)
  else
    (leftRef, rightRef, title)

/-- The `HistoryViewContext` record from `model.ts`, as used by
`commands.ts`. -/
structure HistoryViewContext where
  repo : Option GitRepo := none
  branch : Option String := none
  specifiedPath : Option String := none
  line : Option Nat := none
  author : Option String := none
deriving DecidableEq, Repr

/-- The history-context side of the model, with JavaScript object identity
made explicit: `heap` holds the context records ever allocated (a heap
address is a list index) and `historyCtx` is the address the model
`historyViewContext` property currently references (`none` if unset).
An in-place field write (`context.author = email`) updates a heap cell
without allocating; constructing an object literal allocates a fresh
cell. -/
structure ModelState where
  heap : List HistoryViewContext
  historyCtx : Option Nat
deriving DecidableEq, Repr

/-- Modelled from the spec: `Model.setHistoryViewContext` is not among the
sources; per the Context Dispatcher section of the spec it replaces the
externally-held current history context with the record it is handed
(here: the heap address of that record). -/
def setHistoryViewContext (s : ModelState) (r : Nat) : ModelState :=
  { s with historyCtx := some r }

/-- Allocate a freshly constructed context record on the heap, returning
the new state and the address of the new record. -/
def alloc (s : ModelState) (c : HistoryViewContext) : ModelState × Nat :=
  ({ s with heap := s.heap ++ [c] }, s.heap.length)

/-- The `viewBranchHistory` handler when invoked without a context
argument: the picked label and repo are put in a fresh object literal
`{ branch: item.label, repo }` which is published. -/
def viewBranchHistoryFresh (s : ModelState) (repo : GitRepo)
    (pickedLabel : String) : ModelState :=
  let (s1, r) := alloc s { branch := some pickedLabel, repo := some repo }
  setHistoryViewContext s1 r

/-- The `viewBranchHistory` handler when invoked with a context argument
referencing heap address `r`: `context.branch = item.label` writes the
field of that very record in place, and the same record is republished. -/
def viewBranchHistoryWithCtx (s : ModelState) (r : Nat)
    (pickedLabel : String) : Option ModelState :=
  match s.heap[r]? with
  | none => none
  | some c =>
    let s1 := { s with heap := s.heap.set r { c with branch := some pickedLabel } }
    some (setHistoryViewContext s1 r)

/-- The `viewAuthorHistory` handler: asserts a history context exists,
lets the user pick an author (whose item description is the `email`),
then executes `context.author = email` on the model current history
context — an in-place field write on the already-published record —
and republishes that same record. -/
def viewAuthorHistory (s : ModelState) (email : String) : Option ModelState :=
  match s.historyCtx with
  | none => none
  | some r =>
    match s.heap[r]? with
    | none => none
    | some c =>
      let s1 := { s with heap := s.heap.set r { c with author := some email } }
      some (setHistoryViewContext s1 r)

/-- A quick-pick label carries the current-branch marker exactly when it
begins with the eight characters of the check-mark marker. -/
def isMarkedLabel (s : String) : Bool := s.data.take 8 == "$(check)".data

/-- Number of items of a pick list whose label carries the current-branch
marker. -/
def countMarked (items : List QuickPickItem) : Nat :=
  items.countP (fun i => isMarkedLabel i.label)

/-- Whether a ref is the one `selectBranch` tests as current:
`branch.label === currentRef` on the undecorated label. -/
def isCurHit (currentRef : Option String) (ref : GitRef) : Bool :=
  currentRef == some (refLabel ref)

section Fixtures

/-- A concrete repository used in concrete-scenario theorems. -/
def repo1 : GitRepo := { root := "/repo" }

/-- A local branch `main` at commit `aaa`. -/
def mainRef : GitRef := { type := .Head, name := some "main", commit := "aaa" }

/-- A tag `v1` at commit `bbb`. -/
def v1Ref : GitRef := { type := .Tag, name := some "v1", commit := "bbb" }

/-- The two-ref catalog of the diff-branch scenario of the spec. -/
def refs1 : List GitRef := [mainRef, v1Ref]

/-- A catalog in which a branch and a tag share the name `main`. -/
def dupRefs : List GitRef :=
  [{ type := .Head, name := some "main", commit := "aaa" },
   { type := .Tag, name := some "main", commit := "bbb" }]

end Fixtures

section Theorems

theorem choseBranchOnPick_getElem_zero (refs : List GitRef) (cur : Option String)
    (d : Bool) : (choseBranchOnPick refs cur true d)[0]? = some enterShaItem := by
  simp [choseBranchOnPick, selectBranch]

theorem choseBranchOnPick_getElem_succ (refs : List GitRef) (cur : Option String)
    (d : Bool) (i : Nat) (ref : GitRef) (h : refs[i]? = some ref) :
    (choseBranchOnPick refs cur true d)[i + 1]? = some (refToItem cur false ref) := by
  simp [choseBranchOnPick, selectBranch, List.getElem?_map, h]

theorem refToItem_false (cur : Option String) (ref : GitRef) :
    refToItem cur false ref =
      { label := refLabel ref, description := refDescription ref,
        openShaTextBox := false } := rfl

theorem getRef_refToItem (cur : Option String) (ref : GitRef) (inp : Option String) :
    getRefFromQuickPickItem (refToItem cur false ref) inp = some (refLabel ref) := rfl

theorem refLabel_of_name (ref : GitRef) (n : String) (hn : ref.name = some n)
    (hne : n ≠ "") : refLabel ref = n := by
  simp [refLabel, jsOr, hn, hne]

/-- C8: repo selection over zero repositories yields no repository and shows
no prompt; over exactly one repository it returns that repository and shows
no prompt. -/
theorem C8_selectGitRepo_zero_and_one (repos : List GitRepo) (pick : Option Nat) :
    (repos = [] → selectGitRepo repos pick = (none, false)) ∧
    (∀ r, repos = [r] → selectGitRepo repos pick = (some r, false)) := by
  constructor
  · intro h; subst h; rfl
  · intro r h; subst h; rfl

theorem C8_witness :
    selectGitRepo [] none = (none, false) ∧
    selectGitRepo [repo1] (some 5) = (some repo1, false) :=
  ⟨(C8_selectGitRepo_zero_and_one [] none).1 rfl,
   (C8_selectGitRepo_zero_and_one [repo1] (some 5)).2 repo1 rfl⟩

/-- C10: every item of the pick list built by `_choseBranchOnPick` — for any
value of its fourth (`defaultRef`) argument, including the `true` the
diff-branch source round passes — is either the manual-entry sentinel or the
undecorated item of one of the refs: the current-branch marker is never
applied. -/
theorem C10_choseBranchOnPick_items_undecorated (refs : List GitRef)
    (cur : Option String) (d : Bool) (item : QuickPickItem)
    (h : item ∈ choseBranchOnPick refs cur true d) :
    item = enterShaItem ∨
      ∃ ref ∈ refs,
        item = { label := refLabel ref, description := refDescription ref,
                 openShaTextBox := false } := by
  simp only [choseBranchOnPick, selectBranch, if_pos, List.mem_cons, List.mem_map] at h
  rcases h with h | ⟨ref, hm, rfl⟩
  · exact Or.inl h
  · exact Or.inr ⟨ref, hm, rfl⟩

theorem C10_witness :
    ({ label := "main", description := "aaa", openShaTextBox := false } : QuickPickItem)
        = enterShaItem ∨
      ∃ ref ∈ refs1,
        ({ label := "main", description := "aaa", openShaTextBox := false } : QuickPickItem)
          = { label := refLabel ref, description := refDescription ref,
              openShaTextBox := false } :=
  C10_choseBranchOnPick_items_undecorated refs1 (some "main") true _ (by decide)



/-- C1: in the diff-branch flow, picking an existing ref named `main` as
source and an existing ref named `v1` as target publishes a Files-Diff
Context with `leftRef = "main"` and `rightRef = "v1"` — the plain ref
labels, with no current-branch marker decoration. -/
theorem C1_diffBranch_publishes_plain_labels (repos : List GitRepo)
    (refs : List GitRef) (cur : Option String) (u : DiffBranchUser)
    (repo : GitRepo) (i j : Nat) (srcRef tgtRef : GitRef)
    (hrepo : (selectGitRepo repos u.repoPick).1 = some repo)
    (hsrc : refs[i]? = some srcRef) (hsname : srcRef.name = some "main")
    (htgt : refs[j]? = some tgtRef) (htname : tgtRef.name = some "v1")
    (hsp : u.sourcePick = some (i + 1)) (htp : u.targetPick = some (j + 1)) :
    diffBranch repos refs cur u =
      .published { repo := some repo, leftRef := some "main",
                   rightRef := some "v1", specifiedPath := none } := by
  have hs := choseBranchOnPick_getElem_succ refs cur true i srcRef hsrc
  have ht := choseBranchOnPick_getElem_succ refs cur false j tgtRef htgt
  simp only [diffBranch, hrepo, hsp, htp, Option.some_bind, hs, ht,
    getRef_refToItem]
  rw [refLabel_of_name srcRef "main" hsname (by decide),
    refLabel_of_name tgtRef "v1" htname (by decide)]

theorem C1_witness :
    diffBranch [repo1] refs1 (some "main")
      { repoPick := none, sourcePick := some 1, targetPick := some 2,
        sourceInput := none, targetInput := none } =
      .published { repo := some repo1, leftRef := some "main",
                   rightRef := some "v1", specifiedPath := none } :=
  C1_diffBranch_publishes_plain_labels [repo1] refs1 (some "main") _ repo1 0 1
    mainRef v1Ref rfl rfl rfl rfl rfl rfl rfl

/-- C4: in the diff-branch flow, if the target-selection round yields no
item after a source item was resolved, no context is published (the flow
ends with the "Invalid Branch" message) and the stored files-view context
is unchanged. -/
theorem C4_cancel_target_no_publish (repos : List GitRepo) (refs : List GitRef)
    (cur : Option String) (u : DiffBranchUser) (m : Option FilesViewContext)
    (repo : GitRepo) (srcItem : QuickPickItem)
    (hrepo : (selectGitRepo repos u.repoPick).1 = some repo)
    (hsrc : u.sourcePick.bind (fun i => (choseBranchOnPick refs cur true true)[i]?)
      = some srcItem)
    (htp : u.targetPick = none) :
    diffBranch repos refs cur u = .errorMsg "Invalid Branch" ∧
      applyFlow m (diffBranch repos refs cur u) = m := by
  have h : diffBranch repos refs cur u = .errorMsg "Invalid Branch" := by
    simp only [diffBranch, hrepo, hsrc, htp, Option.none_bind]
  exact ⟨h, by rw [h]; rfl⟩

theorem C4_witness :
    diffBranch [repo1] refs1 (some "main")
      { repoPick := none, sourcePick := some 1, targetPick := none,
        sourceInput := none, targetInput := none } = .errorMsg "Invalid Branch" ∧
      applyFlow (some clearContext)
        (diffBranch [repo1] refs1 (some "main")
          { repoPick := none, sourcePick := some 1, targetPick := none,
            sourceInput := none, targetInput := none }) = some clearContext :=
  C4_cancel_target_no_publish [repo1] refs1 (some "main") _ (some clearContext)
    repo1 (refToItem (some "main") false mainRef) rfl (by decide) rfl



theorem getRef_enterSha (inp : Option String) :
    getRefFromQuickPickItem enterShaItem inp = inp := rfl

/-- C2 counterexample: a manual-entry round resolves to the raw submitted
text, not the trimmed text, and an empty submission does not abort the
diff-branch flow — the empty string is published. -/
theorem C2_counterexample_manual_entry_not_trimmed :
    getRefFromQuickPickItem enterShaItem (some "  abc123  ") = some "  abc123  " ∧
    ("  abc123  " : String) ≠ "abc123" ∧
    diffBranch [repo1] refs1 (some "main")
      { repoPick := none, sourcePick := some 0, targetPick := some 2,
        sourceInput := some "", targetInput := none } =
      .published { repo := some repo1, leftRef := some "", rightRef := some "v1",
                   specifiedPath := none } := by
  refine ⟨rfl, by decide, by decide⟩

/-- C2 amended: a manual-entry round resolves to the submitted text verbatim
(no trimming, the empty string included) and the diff-branch flow publishes
it; the empty string aborts only where a caller tests the resolved value,
as `diffFile` does. -/
theorem C2_manual_entry_resolves_verbatim :
    (∀ (repos : List GitRepo) (refs : List GitRef) (cur : Option String)
        (u : DiffBranchUser) (repo : GitRepo) (s : String) (j : Nat) (tgtRef : GitRef),
      (selectGitRepo repos u.repoPick).1 = some repo →
      u.sourcePick = some 0 → u.sourceInput = some s →
      refs[j]? = some tgtRef → u.targetPick = some (j + 1) →
      diffBranch repos refs cur u =
        .published { repo := some repo, leftRef := some s,
                     rightRef := some (refLabel tgtRef), specifiedPath := none }) ∧
    (∀ (repo : GitRepo) (refs : List GitRef) (cur : Option String) (p : String)
        (u : DiffFileUser),
      u.pick = some 0 → u.input = some "" →
      diffFile repo refs cur (some p) u = .aborted) := by
  constructor
  · intro repos refs cur u repo s j tgtRef hrepo hsp hsi htgt htp
    have hz := choseBranchOnPick_getElem_zero refs cur true
    have ht := choseBranchOnPick_getElem_succ refs cur false j tgtRef htgt
    simp only [diffBranch, hrepo, hsp, htp, Option.some_bind, hz, ht,
      getRef_refToItem, getRef_enterSha, hsi]
  · intro repo refs cur p u hp hi
    have hz : (selectBranch refs cur true false)[0]? = some enterShaItem := by
      simp [selectBranch]
    simp only [diffFile, hp, hi, Option.some_bind, hz, getRef_enterSha]
    rfl

theorem C2_witness :
    diffBranch [repo1] refs1 (some "main")
      { repoPick := none, sourcePick := some 0, targetPick := some 2,
        sourceInput := some "  abc123  ", targetInput := none } =
      .published { repo := some repo1, leftRef := some "  abc123  ",
                   rightRef := some (refLabel v1Ref), specifiedPath := none } ∧
    diffFile repo1 refs1 (some "main") (some "/repo/a.txt")
      { pick := some 0, input := some "" } = .aborted :=
  ⟨C2_manual_entry_resolves_verbatim.1 [repo1] refs1 (some "main") _ repo1
      "  abc123  " 1 v1Ref rfl rfl rfl rfl rfl,
   C2_manual_entry_resolves_verbatim.2 repo1 refs1 (some "main") "/repo/a.txt"
      _ rfl rfl⟩

/-- C6: cancelling the `inputRef` input box makes the handler evaluate
`undefined.trim()` — a thrown `TypeError`, not a silent abort. -/
theorem C6_inputRef_cancellation_throws :
    inputRef [repo1] none none =
      .thrown "TypeError: Cannot read properties of undefined (reading trim)" := by
  decide

/-- C9 counterexample: a context whose `leftRef` is present but empty is not
used as-is — `openCommittedFile` still synthesizes the left side as
`rightRef + "~"` and the title omits the left ref. -/
theorem C9_counterexample_empty_leftRef_not_used :
    (some "" : Option String) ≠ none ∧
    openCommittedFile (some "") "v2" = ("v2~", "v2", "v2") := by
  decide

/-- C9 amended: when the stored `leftRef` is absent or empty, the left side
of the diff is synthesized as `rightRef + "~"` and the title is the right
ref alone; when `leftRef` is a non-empty string it is used as-is and the
title shows both refs. -/
theorem C9_openCommittedFile_left_synthesis (l r : String) :
    openCommittedFile none r = (r ++ "~", r, r) ∧
    openCommittedFile (some "") r = (r ++ "~", r, r) ∧
    (l ≠ "" → openCommittedFile (some l) r = (l, r, l ++ " .. " ++ r)) := by
  refine ⟨rfl, by simp [openCommittedFile, jsTruthy], fun h => ?_⟩
  simp [openCommittedFile, jsTruthy, h]

theorem C9_witness :
    openCommittedFile none "v1" = ("v1~", "v1", "v1") ∧
    openCommittedFile (some "") "v1" = ("v1~", "v1", "v1") ∧
    openCommittedFile (some "main") "v1" = ("main", "v1", "main .. v1") :=
  ⟨(C9_openCommittedFile_left_synthesis "main" "v1").1,
   (C9_openCommittedFile_left_synthesis "main" "v1").2.1,
   (C9_openCommittedFile_left_synthesis "main" "v1").2.2 (by decide)⟩



/-- C3 counterexample: `clear` publishes — unconditionally — a Files-Diff
Context whose `rightRef` is absent. -/
theorem C3_counterexample_clear_publishes_absent_rightRef :
    clear none = some clearContext ∧ clearContext.rightRef = none :=
  ⟨rfl, rfl⟩

/-- C3 amended: no publish path checks `rightRef`.  `clear` always publishes
an absent `rightRef`; `inputRef` always publishes the trimmed submission
(present); `diffBranch` publishes an absent `rightRef` exactly when the
target round went through manual entry and the input box was cancelled;
`diffFile` publishes the current branch, absent only when that is. -/
theorem C3_rightRef_per_flow :
    (∀ m, clear m = some clearContext ∧ clearContext.rightRef = none) ∧
    (∀ (repos : List GitRepo) (rp : Option Nat) (s : String) (ctx : FilesViewContext),
      inputRef repos rp (some s) = .ok (.published ctx) → ctx.rightRef = some s.trim) ∧
    (∀ (repos : List GitRepo) (refs : List GitRef) (cur : Option String)
        (u : DiffBranchUser) (ctx : FilesViewContext),
      diffBranch repos refs cur u = .published ctx → ctx.rightRef = none →
        u.targetInput = none) ∧
    (∀ (repo : GitRepo) (refs : List GitRef) (cur : Option String)
        (sp : Option String) (u : DiffFileUser) (ctx : FilesViewContext),
      diffFile repo refs cur sp u = .published ctx → ctx.rightRef = cur) := by
  refine ⟨fun m => ⟨rfl, rfl⟩, ?_, ?_, ?_⟩
  · intro repos rp s ctx h
    simp only [inputRef] at h
    split at h
    · simp at h
    · simp only [JsResult.ok.injEq, FlowResult.published.injEq] at h
      subst h
      rfl
  · intro repos refs cur u ctx h hnone
    simp only [diffBranch] at h
    split at h
    · simp at h
    · split at h
      · simp at h
      · split at h
        · simp at h
        · simp only [FlowResult.published.injEq] at h
          subst h
          simp only [getRefFromQuickPickItem] at hnone
          split at hnone
          · exact hnone
          · simp at hnone
  · intro repo refs cur sp u ctx h
    simp only [diffFile] at h
    split at h
    · simp at h
    · split at h
      · simp at h
      · split at h
        · simp only [FlowResult.published.injEq] at h
          subst h
          rfl
        · simp at h

theorem C3_witness :
    (clear none = some clearContext ∧ clearContext.rightRef = none) ∧
    ({ leftRef := none, rightRef := some " x ".trim, specifiedPath := none,
        repo := some repo1 } : FilesViewContext).rightRef = some " x ".trim ∧
    ((none : Option String) = none) ∧
    ({ repo := some repo1, leftRef := some " main", rightRef := some "main",
        specifiedPath := some "/repo/a.txt" } : FilesViewContext).rightRef
      = some "main" :=
  ⟨C3_rightRef_per_flow.1 none,
   C3_rightRef_per_flow.2.1 [repo1] none " x " _ rfl,
   C3_rightRef_per_flow.2.2.1 [repo1] refs1 (some "main")
     { repoPick := none, sourcePick := some 1, targetPick := some 0,
       sourceInput := none, targetInput := none }
     { repo := some repo1, leftRef := some "main", rightRef := none,
       specifiedPath := none } (by decide) rfl,
   C3_rightRef_per_flow.2.2.2 repo1 refs1 (some "main") (some "/repo/a.txt")
     { pick := some 0, input := some " main" }
     _ (by decide)⟩



/-- C5 counterexample: running `viewAuthorHistory` on a model whose
published history context lives at heap address 0 rewrites the record at
that same address (its `author` field changes), republishes the same
address, and allocates nothing — the previously published context is
mutated in place, not replaced by a freshly constructed record. -/
theorem C5_counterexample_author_mutates_published_context :
    (viewAuthorHistory { heap := [{ repo := some repo1 }], historyCtx := some 0 }
        "a@b").map (fun s => (s.heap[0]?, s.historyCtx, s.heap.length)) =
      some (some { repo := some repo1, author := some "a@b" }, some 0, 1) ∧
    ({ repo := some repo1, author := some "a@b" } : HistoryViewContext) ≠
      { repo := some repo1 } := by
  decide

/-- C5 amended: flows that start a new history view construct a fresh
record and publish it, but `viewAuthorHistory` and `viewBranchHistory`
(when handed an existing context) write one field of the already-published
record in place and republish that same record. -/
theorem C5_context_freshness_per_flow :
    (∀ (s : ModelState) (email : String) (r : Nat) (c : HistoryViewContext),
      s.historyCtx = some r → s.heap[r]? = some c →
      viewAuthorHistory s email =
        some { heap := s.heap.set r { c with author := some email },
               historyCtx := some r }) ∧
    (∀ (s : ModelState) (repo : GitRepo) (label : String),
      viewBranchHistoryFresh s repo label =
        { heap := s.heap ++ [{ branch := some label, repo := some repo }],
          historyCtx := some s.heap.length }) ∧
    (∀ (s : ModelState) (r : Nat) (label : String) (c : HistoryViewContext),
      s.heap[r]? = some c →
      viewBranchHistoryWithCtx s r label =
        some { heap := s.heap.set r { c with branch := some label },
               historyCtx := some r }) := by
  refine ⟨?_, fun s repo label => rfl, ?_⟩
  · intro s email r c h1 h2
    simp [viewAuthorHistory, h1, h2, setHistoryViewContext]
  · intro s r label c h
    simp [viewBranchHistoryWithCtx, h, setHistoryViewContext]

theorem C5_witness :
    viewAuthorHistory { heap := [{ repo := some repo1 }], historyCtx := some 0 }
        "a@b" =
      some { heap := [{ repo := some repo1 }].set 0
               { repo := some repo1, author := some "a@b" },
             historyCtx := some 0 } ∧
    viewBranchHistoryFresh { heap := [], historyCtx := none } repo1 "main" =
      { heap := [] ++ [{ branch := some "main", repo := some repo1 }],
        historyCtx := some ([] : List HistoryViewContext).length } ∧
    viewBranchHistoryWithCtx { heap := [{ repo := some repo1 }], historyCtx := some 0 }
        0 "dev" =
      some { heap := [{ repo := some repo1 }].set 0
               { repo := some repo1, branch := some "dev" },
             historyCtx := some 0 } :=
  ⟨C5_context_freshness_per_flow.1
      { heap := [{ repo := some repo1 }], historyCtx := some 0 } "a@b" 0
      { repo := some repo1 } rfl rfl,
   C5_context_freshness_per_flow.2.1 { heap := [], historyCtx := none } repo1 "main",
   C5_context_freshness_per_flow.2.2
      { heap := [{ repo := some repo1 }], historyCtx := some 0 } 0 "dev"
      { repo := some repo1 } rfl⟩



theorem isMarkedLabel_decorate (b : Bool) (l : String) :
    isMarkedLabel (decorate b l) = b := by
  cases b
  · rfl
  · rfl

theorem isMarkedLabel_enterSha : isMarkedLabel enterShaItem.label = false := rfl



theorem countMarked_selectBranch (refs : List GitRef) (cur : Option String)
    (allowSha : Bool) :
    countMarked (selectBranch refs cur allowSha true) =
      refs.countP (isCurHit cur) := by
  have hmap : (refs.map (refToItem cur true)).countP (fun i => isMarkedLabel i.label)
      = refs.countP (isCurHit cur) := by
    rw [List.countP_map]
    apply List.countP_congr
    intro ref _
    simp [Function.comp, refToItem, isMarkedLabel_decorate, isCurHit]
  cases allowSha
  · simpa [selectBranch, countMarked] using hmap
  · simp only [selectBranch, countMarked, if_pos, List.countP_cons,
      isMarkedLabel_enterSha]
    simpa using hmap

theorem hitCount_le_one (refs : List GitRef) (cur : Option String)
    (hnd : (refs.map refLabel).Nodup) : refs.countP (isCurHit cur) ≤ 1 := by
  induction refs with
  | nil => simp
  | cons a l ih =>
    simp only [List.map_cons, List.nodup_cons] at hnd
    rw [List.countP_cons]
    by_cases h : isCurHit cur a = true
    · have hcur : cur = some (refLabel a) := by
        simpa [isCurHit] using h
      have hz : l.countP (isCurHit cur) = 0 := by
        rw [List.countP_eq_zero]
        intro b hb hhit
        have : refLabel a = refLabel b := by
          simpa [isCurHit, hcur] using hhit
        exact hnd.1 (this ▸ List.mem_map_of_mem refLabel hb)
      simp [h, hz]
    · have := ih hnd.2
      rw [if_neg h]
      omega



/-- C7 counterexample: when a branch and a tag share the current branch
name, `selectBranch` with `selectCurRef` set marks both items — some ref
matches the current branch, yet the number of marked items is 2, not
exactly one. -/
theorem C7_counterexample_duplicate_labels_double_marked :
    countMarked (selectBranch dupRefs (some "main") false true) = 2 ∧
    dupRefs.countP (fun r => r.name == some "main") = 2 := by
  decide

/-- C7 amended: for a ref list whose labels (name, or commit when the name
is absent) are pairwise distinct, building the pick list with the
mark-current flag set marks exactly one item iff the label of some ref equals
the current branch name, and marks zero items iff the label of no ref matches
(detached state) — with no error in either case. -/
theorem C7_unique_labels_exactly_one_marked (refs : List GitRef)
    (cur : Option String) (allowSha : Bool)
    (hnd : (refs.map refLabel).Nodup) :
    (countMarked (selectBranch refs cur allowSha true) = 1 ↔
      ∃ r ∈ refs, isCurHit cur r = true) ∧
    (countMarked (selectBranch refs cur allowSha true) = 0 ↔
      ∀ r ∈ refs, isCurHit cur r = false) := by
  rw [countMarked_selectBranch]
  have hle := hitCount_le_one refs cur hnd
  constructor
  · constructor
    · intro h1
      have hpos : 0 < refs.countP (isCurHit cur) := by omega
      exact List.countP_pos_iff.mp hpos
    · rintro ⟨r, hr, hhit⟩
      have hpos : 0 < refs.countP (isCurHit cur) :=
        List.countP_pos_iff.mpr ⟨r, hr, hhit⟩
      omega
  · rw [List.countP_eq_zero]
    constructor
    · intro h r hr
      simpa using h r hr
    · intro h r hr
      simp [h r hr]



theorem C7_witness :
    countMarked (selectBranch refs1 (some "main") false true) = 1 :=
  (C7_unique_labels_exactly_one_marked refs1 (some "main") false (by decide)).1.mpr
    ⟨mainRef, by decide, by decide⟩

end Theorems

end Githd
